import Mathlib

/-!
Shallow embedding of `src/sql_parser.py`: a utility that calls an external
column-lineage extractor per SQL statement and flattens the nested result into
a flat table written as CSV.  Python dictionaries holding row data are modelled
as insertion-ordered association lists, pandas DataFrames as a column list plus
a row list, and the extractor as a function parameter returning `Except`.
-/

namespace SqlParser

/-- A cell value: `none` models Python `None` (or an absent key reached
through `dict.get`), `some s` a string value. -/
abbrev Value := Option String

/-- The output-row field names used by `convert_sql_to_metadata`. -/
inductive Field where
  | filename
  | database_name
  | cluster_name
  | schema_name
  | table_name
  | column_name
  | column_data_type
  | expression
  | message
  | source_database_name
  | source_cluster_name
  | source_schema_name
  | source_table_name
  | source_column_name
  | filter_type
  | filter
deriving DecidableEq, Repr

/-- The exact string naming each field, as it appears in the CSV header. -/
def Field.name : Field → String
  | .filename => "filename"
  | .database_name => "database_name"
  | .cluster_name => "cluster_name"
  | .schema_name => "schema_name"
  | .table_name => "table_name"
  | .column_name => "column_name"
  | .column_data_type => "column_data_type"
  | .expression => "expression"
  | .message => "message"
  | .source_database_name => "source_database_name"
  | .source_cluster_name => "source_cluster_name"
  | .source_schema_name => "source_schema_name"
  | .source_table_name => "source_table_name"
  | .source_column_name => "source_column_name"
  | .filter_type => "filter_type"
  | .filter => "filter"

/-- A Python dict used as an output row: an association list in key-insertion
order.  Assigning to an existing key updates it in place (keeping its
position); assigning a new key appends it at the end, exactly like a `dict`. -/
abbrev Row := List (Field × Value)

/-- `row[f] = v` on a Python dict: replace in place, or append a new key. -/
def rowSet : Row → Field → Value → Row
  | [], f, v => [(f, v)]
  | (g, w) :: r, f, v => if g = f then (f, v) :: r else (g, w) :: rowSet r f v

/-- Key lookup in a row: `some v` when the key is present, `none` when the
key was never assigned (an unset field). -/
def rowFind : Row → Field → Option Value
  | [], _ => none
  | (g, w) :: r, f => if g = f then some w else rowFind r f

/-- The key list of a row, in insertion order. -/
def keys (r : Row) : List Field := r.map Prod.fst

/-- One lineage item attached to a column in the extractor's result
(`{schema, table, column, expression, filter_type, filter, message}`). -/
structure LineageItem where
  schema : Value
  table : Value
  column : Value
  expression : Value
  filter_type : Value
  filter : Value
  message : Value
deriving DecidableEq, Repr

/-- Details of one column in the extractor's result.  `data_type` models
`column_details.get('data_type')` (absent key and a `None` value coincide
under `.get`); `lineage = none` models a column dict without a `'lineage'`
key, `some items` one with it. -/
structure ColumnDetails where
  data_type : Value
  lineage : Option (List LineageItem)
deriving DecidableEq, Repr

/-- Details of one table in the extractor's result: `{schema, table,
columns}`, with `columns` an insertion-ordered dict from column name to
column details. -/
structure TableDetails where
  schema : Value
  table : Value
  columns : List (String × ColumnDetails)
deriving DecidableEq, Repr

/-- The extractor's result: an insertion-ordered dict from fully-qualified
table name to table details. -/
abbrev LineageResult := List (String × TableDetails)

/-- A pandas DataFrame, reduced to what the program observes: an ordered
column list and ordered rows (each a dict). -/
structure Df where
  cols : List Field
  rows : List Row
deriving DecidableEq, Repr

/-- Add one key to a column list if it is new (pandas column-union order:
first appearance wins). -/
def insertKey (ks : List Field) (f : Field) : List Field :=
  if f ∈ ks then ks else ks ++ [f]

/-- Union a list of new keys into a column list, preserving order. -/
def insertKeys (ks : List Field) (new : List Field) : List Field :=
  new.foldl insertKey ks

/-- `pd.DataFrame(rows)` for a list of dicts: columns are the union of the
rows' keys in order of first appearance. -/
def dfOfRows (rows : List Row) : Df :=
  { cols := rows.foldl (fun acc r => insertKeys acc (keys r)) []
    rows := rows }

/-- `pd.concat([a, b], ignore_index=True)` with the default `sort=False`:
columns of `a` first, then the columns of `b` not already present, in order;
rows appended. -/
def pdConcat (a b : Df) : Df :=
  { cols := a.cols ++ b.cols.filter (fun c => decide (c ∉ a.cols))
    rows := a.rows ++ b.rows }

/-- `pd.concat(dfs, ignore_index=True)` on a list; pandas raises
`ValueError: No objects to concatenate` on an empty list, modelled by
`none`. -/
def pdConcatList : List Df → Option Df
  | [] => none
  | d :: ds => some (ds.foldl pdConcat d)

/-- The 14 columns of the initial empty `metadata` DataFrame, in the order
of the `pd.DataFrame(columns=[...])` call (note: no `filter_type`, no
`filter`). -/
def fields14 : List Field :=
  [.filename, .database_name, .cluster_name, .schema_name, .table_name,
   .column_name, .column_data_type, .expression, .message,
   .source_database_name, .source_cluster_name, .source_schema_name,
   .source_table_name, .source_column_name]

/-- The 14 initial columns followed by `filter_type` and `filter`, the two
keys only lineage rows introduce. -/
def fields16 : List Field := fields14 ++ [.filter_type, .filter]

/-- The empty 14-column `metadata` DataFrame built at the top of
`convert_sql_to_metadata`. -/
def emptyMetadata : Df := { cols := fields14, rows := [] }

/-- `column_details.get('data_type') if column_details.get('data_type') else
'NA'`: any falsy value (absent key, `None`, empty string) becomes the
sentinel `"NA"`. -/
def dataTypeValue : Value → Value
  | some s => if s = "" then some "NA" else some s
  | none => some "NA"

/-- The per-column row dict after the seven assignments preceding the
lineage loop (`filename` through `column_data_type`). -/
def columnRowInit (filename database_name cluster_name : Value)
    (td : TableDetails) (column_name : String) (cd : ColumnDetails) : Row :=
  [(.filename, filename), (.database_name, database_name),
   (.cluster_name, cluster_name), (.schema_name, td.schema),
   (.table_name, td.table), (.column_name, some column_name),
   (.column_data_type, dataTypeValue cd.data_type)]

/-- One iteration of the inner lineage loop: the nine assignments performed
on the (shared) row dict for one lineage item. -/
def applyItem (source_database_name source_cluster_name : Value)
    (r : Row) (it : LineageItem) : Row :=
  rowSet (rowSet (rowSet (rowSet (rowSet (rowSet (rowSet (rowSet (rowSet r
    .source_database_name source_database_name)
    .source_cluster_name source_cluster_name)
    .source_schema_name it.schema)
    .source_table_name it.table)
    .source_column_name it.column)
    .expression it.expression)
    .filter_type it.filter_type)
    .filter it.filter)
    .message it.message

/-- The rows appended for one column.  The Python loop appends the *same*
dict object once per lineage item and keeps mutating it, so at the end the
list holds `items.length` references to the dict as left by the *last*
item: `List.replicate items.length (foldl applyItem ...)`.  A column dict
without a `'lineage'` key appends nothing. -/
def columnRows (filename database_name cluster_name
    source_database_name source_cluster_name : Value)
    (td : TableDetails) (column_name : String) (cd : ColumnDetails) :
    List Row :=
  match cd.lineage with
  | none => []
  | some items =>
      List.replicate items.length
        (items.foldl (applyItem source_database_name source_cluster_name)
          (columnRowInit filename database_name cluster_name td column_name cd))

/-- The single row appended for a table whose `columns` dict is empty. -/
def noColumnsRow (filename database_name cluster_name : Value)
    (td : TableDetails) : Row :=
  [(.filename, filename), (.database_name, database_name),
   (.cluster_name, cluster_name), (.schema_name, td.schema),
   (.table_name, td.table)]

/-- The rows appended for one table of the lineage result: per-column
lineage rows when `columns` is truthy (non-empty), otherwise the single
identifying row. -/
def tableRows (filename database_name cluster_name
    source_database_name source_cluster_name : Value)
    (td : TableDetails) : List Row :=
  if td.columns.isEmpty then
    [noColumnsRow filename database_name cluster_name td]
  else
    (td.columns.map fun c =>
      columnRows filename database_name cluster_name
        source_database_name source_cluster_name td c.1 c.2).flatten

/-- The full `rows` list built from a (truthy) lineage result. -/
def lineageRows (filename database_name cluster_name
    source_database_name source_cluster_name : Value)
    (lr : LineageResult) : List Row :=
  (lr.map fun t =>
    tableRows filename database_name cluster_name
      source_database_name source_cluster_name t.2).flatten

/-- How `convert_sql_to_metadata` and `process` fail: the explicit
`Exception('Column Lineage not found')`, an exception raised by the external
extractor call (re-raised unchanged by `raise e`), or pandas refusing
`pd.concat([])`. -/
inductive Err (ε : Type) where
  | lineageNotFound
  | extractorFailure (e : ε)
  | noObjectsToConcat
deriving DecidableEq, Repr

/-- `convert_sql_to_metadata`: call the extractor, fail on a falsy (empty)
result, otherwise flatten the nested lineage into rows and concatenate them
onto the empty 14-column DataFrame.  `schema_name` and `table_name` are
accepted exactly as in the source, which never reads them. -/
def convert_sql_to_metadata {ε : Type}
    (extract : String → Value → Except ε LineageResult)
    (filename : Value) (sql_stmt : String)
    (database_name cluster_name schema_name table_name
      source_database_name source_cluster_name : Value)
    (dialect : Value) : Except (Err ε) Df :=
  match extract sql_stmt dialect with
  | .error e => .error (.extractorFailure e)
  | .ok lineage =>
      if lineage.isEmpty then .error .lineageNotFound
      else
        .ok (pdConcat emptyMetadata (dfOfRows
          (lineageRows filename database_name cluster_name
            source_database_name source_cluster_name lineage)))

/-- The path component after the last `/`, as `pathlib.PurePath.name`. -/
def basename (p : String) : String :=
  ((p.toList.reverse.takeWhile (fun c => c != '/')).reverse).asString

/-- `pathlib.PurePath.stem`: the base name with its last extension removed.
CPython computes `i = name.rfind('.')` and returns `name[:i]` when
`0 < i < len(name) - 1`, else `name` unchanged. -/
def stem (p : String) : String :=
  let n := (basename p).toList
  match n.reverse.findIdx? (fun c => c == '.') with
  | none => n.asString
  | some j =>
      let i := n.length - 1 - j
      if 0 < i ∧ i < n.length - 1 then (n.take i).asString else n.asString

/-- `process_sql_file`: read the file's full text and convert it as one
statement, with `filename` the file path and `table_name` the file's stem.
`content` models the filesystem (`open(sql_file).read()`). -/
def process_sql_file {ε : Type}
    (extract : String → Value → Except ε LineageResult)
    (content : String → String) (sql_file : String)
    (database_name cluster_name schema_name
      source_database_name source_cluster_name dialect : Value) :
    Except (Err ε) Df :=
  convert_sql_to_metadata extract (some sql_file) (content sql_file)
    database_name cluster_name schema_name (some (stem sql_file))
    source_database_name source_cluster_name dialect

/-- The classification `process` performs on its `input` argument.  For a
directory, `entries` carries the recursively enumerated file paths in
discovery order; `rglob('*.sql')` keeps those whose name ends in `.sql`. -/
inductive Input where
  | file (path : String)
  | dir (entries : List String)
  | stmt (sql : String)

/-- Does the path end in `.sql` (the `*.sql` glob on the file name)? -/
def isSqlPath (p : String) : Bool :=
  p.toList.reverse.take 4 == ['l', 'q', 's', '.']

/-- The `.sql` files of a directory enumeration, in discovery order. -/
def sqlFilesOf (entries : List String) : List String :=
  entries.filter isSqlPath

/-- Sequence a fallible computation over a list, stopping at the first
error — the shape of the `for sql_file in input_dir.rglob(...)` loop, where
an exception aborts the run. -/
def mapExcept {α β ε : Type} (f : α → Except ε β) : List α → Except ε (List β)
  | [] => .ok []
  | a :: as =>
      match f a with
      | .error e => .error e
      | .ok b =>
          match mapExcept f as with
          | .error e => .error e
          | .ok bs => .ok (b :: bs)

/-- `process`: build the per-input list of DataFrames, then
`pd.concat(dfs, ignore_index=True)`.  Returns the combined DataFrame that
is subsequently written with `to_csv(output, index=False)`. -/
def process {ε : Type}
    (extract : String → Value → Except ε LineageResult)
    (content : String → String) (input : Input)
    (database_name cluster_name schema_name table_name
      source_database_name source_cluster_name dialect : Value) :
    Except (Err ε) Df :=
  let dfsE : Except (Err ε) (List Df) :=
    match input with
    | .file p =>
        (process_sql_file extract content p database_name cluster_name
          schema_name source_database_name source_cluster_name dialect).map
          (fun d => [d])
    | .dir entries =>
        mapExcept
          (fun p =>
            process_sql_file extract content p database_name cluster_name
              schema_name source_database_name source_cluster_name dialect)
          (sqlFilesOf entries)
    | .stmt s =>
        (convert_sql_to_metadata extract none s database_name cluster_name
          schema_name table_name source_database_name source_cluster_name
          dialect).map (fun d => [d])
  match dfsE with
  | .error e => .error e
  | .ok dfs =>
      match pdConcatList dfs with
      | none => .error .noObjectsToConcat
      | some df => .ok df

/-- The serialized CSV: header line and data rows.  `to_csv(index=False)`
writes no index column: the header is exactly the DataFrame's columns. -/
structure Csv where
  header : List String
  dataRows : List (List String)
deriving DecidableEq, Repr

/-- How a cell prints in the CSV: an unset field (`NaN`) and a `None` value
both render as the empty string. -/
def cellString : Option Value → String
  | some (some s) => s
  | some none => ""
  | none => ""

/-- `df.to_csv(output, index=False)`, abstracted to the produced table. -/
def Df.toCsv (df : Df) : Csv :=
  { header := df.cols.map Field.name
    dataRows := df.rows.map fun r => df.cols.map fun c => cellString (rowFind r c) }

/-- Writing the CSV to a path in an abstract output filesystem: the
destination is replaced whatever it held before. -/
def writeCsv (fs : String → Option Csv) (path : String) (c : Csv) :
    String → Option Csv :=
  fun p => if p = path then some c else fs p

/-- A whole run: `process` followed by `combined_df.to_csv(output,
index=False)`.  On any error nothing is written and the filesystem is
unchanged (the run aborts before `to_csv`). -/
def runToFs {ε : Type}
    (extract : String → Value → Except ε LineageResult)
    (content : String → String) (input : Input)
    (database_name cluster_name schema_name table_name
      source_database_name source_cluster_name dialect : Value)
    (output : String) (fs : String → Option Csv) :
    Except (Err ε) (String → Option Csv) :=
  (process extract content input database_name cluster_name schema_name
    table_name source_database_name source_cluster_name dialect).map
    (fun df => writeCsv fs output df.toCsv)

/-! ### Basic lemmas about rows as insertion-ordered dicts -/

theorem rowFind_rowSet_self (r : Row) (f : Field) (v : Value) :
    rowFind (rowSet r f v) f = some v := by
  induction r with
  | nil => simp [rowSet, rowFind]
  | cons p r ih =>
      obtain ⟨g, w⟩ := p
      by_cases h : g = f
      · simp [rowSet, h, rowFind]
      · simp [rowSet, h, rowFind, ih]

theorem rowFind_rowSet_ne (r : Row) {f g : Field} (v : Value) (h : f ≠ g) :
    rowFind (rowSet r g v) f = rowFind r f := by
  induction r with
  | nil => simp [rowSet, rowFind, Ne.symm h]
  | cons p r ih =>
      obtain ⟨a, w⟩ := p
      by_cases ha : a = g
      · subst ha
        simp [rowSet, rowFind, Ne.symm h]
      · by_cases haf : a = f
        · simp [rowSet, ha, rowFind, haf, h]
        · simp [rowSet, ha, rowFind, haf, ih]

theorem keys_rowSet (r : Row) (f : Field) (v : Value) :
    keys (rowSet r f v) = insertKey (keys r) f := by
  induction r with
  | nil => simp [rowSet, keys, insertKey]
  | cons p r ih =>
      obtain ⟨g, w⟩ := p
      by_cases h : g = f
      · subst h
        simp [rowSet, keys, insertKey]
      · have e1 : rowSet ((g, w) :: r) f v = (g, w) :: rowSet r f v := by
          simp [rowSet, h]
        have e3 : (f ∈ g :: keys r) ↔ (f ∈ keys r) := by
          simp [List.mem_cons, Ne.symm h]
        rw [e1]
        have e4 : keys ((g, w) :: rowSet r f v) = g :: keys (rowSet r f v) := rfl
        have e2 : keys ((g, w) :: r) = g :: keys r := rfl
        rw [e4, ih, e2]
        unfold insertKey
        by_cases hm : f ∈ keys r
        · rw [if_pos hm, if_pos (e3.mpr hm)]
        · rw [if_neg hm, if_neg (fun hc => hm (e3.mp hc))]
          rfl

/-- The nine fields assigned inside the lineage-item loop, in first-assignment
order. -/
def lineageFields : List Field :=
  [.source_database_name, .source_cluster_name, .source_schema_name,
   .source_table_name, .source_column_name, .expression, .filter_type,
   .filter, .message]

theorem rowFind_applyItem_of_notMem (sdb scl : Value) (r : Row)
    (it : LineageItem) {f : Field} (h : f ∉ lineageFields) :
    rowFind (applyItem sdb scl r it) f = rowFind r f := by
  simp [lineageFields, List.mem_cons, not_or] at h
  obtain ⟨h1, h2, h3, h4, h5, h6, h7, h8, h9⟩ := h
  unfold applyItem
  rw [rowFind_rowSet_ne _ _ h9, rowFind_rowSet_ne _ _ h8,
    rowFind_rowSet_ne _ _ h7, rowFind_rowSet_ne _ _ h6,
    rowFind_rowSet_ne _ _ h5, rowFind_rowSet_ne _ _ h4,
    rowFind_rowSet_ne _ _ h3, rowFind_rowSet_ne _ _ h2,
    rowFind_rowSet_ne _ _ h1]

theorem rowFind_foldl_applyItem_of_notMem (sdb scl : Value)
    (items : List LineageItem) (r : Row) {f : Field} (h : f ∉ lineageFields) :
    rowFind (items.foldl (applyItem sdb scl) r) f = rowFind r f := by
  induction items generalizing r with
  | nil => rfl
  | cons it items ih =>
      rw [List.foldl_cons, ih, rowFind_applyItem_of_notMem _ _ _ _ h]

theorem keys_applyItem (sdb scl : Value) (r : Row) (it : LineageItem) :
    keys (applyItem sdb scl r it) = insertKeys (keys r) lineageFields := by
  unfold applyItem
  simp only [keys_rowSet]
  simp only [lineageFields, insertKeys, List.foldl_cons, List.foldl_nil]

/-! ### Shapes of emitted rows -/

/-- The key list of a per-column row before the lineage loop. -/
def keysInit : List Field :=
  [.filename, .database_name, .cluster_name, .schema_name, .table_name,
   .column_name, .column_data_type]

/-- The key list of a per-column row after at least one lineage item: the
dict-insertion order of all 16 keys. -/
def keysFull : List Field :=
  [.filename, .database_name, .cluster_name, .schema_name, .table_name,
   .column_name, .column_data_type, .source_database_name,
   .source_cluster_name, .source_schema_name, .source_table_name,
   .source_column_name, .expression, .filter_type, .filter, .message]

/-- The key list of the row emitted for a table without columns. -/
def keysBare : List Field :=
  [.filename, .database_name, .cluster_name, .schema_name, .table_name]

theorem keys_applyItem_of_init (sdb scl : Value) (r : Row) (it : LineageItem)
    (h : keys r = keysInit) : keys (applyItem sdb scl r it) = keysFull := by
  rw [keys_applyItem, h]
  decide

theorem keys_applyItem_of_full (sdb scl : Value) (r : Row) (it : LineageItem)
    (h : keys r = keysFull) : keys (applyItem sdb scl r it) = keysFull := by
  rw [keys_applyItem, h]
  decide

theorem keys_foldl_applyItem_of_full (sdb scl : Value)
    (items : List LineageItem) (r : Row) (h : keys r = keysFull) :
    keys (items.foldl (applyItem sdb scl) r) = keysFull := by
  induction items generalizing r with
  | nil => exact h
  | cons it items ih =>
      rw [List.foldl_cons]
      exact ih _ (keys_applyItem_of_full _ _ _ _ h)

theorem keys_columnRowInit (fn db cl : Value) (td : TableDetails)
    (cn : String) (cd : ColumnDetails) :
    keys (columnRowInit fn db cl td cn cd) = keysInit := rfl

theorem keys_final_row (fn db cl sdb scl : Value) (td : TableDetails)
    (cn : String) (cd : ColumnDetails) {items : List LineageItem}
    (h : items ≠ []) :
    keys (items.foldl (applyItem sdb scl)
      (columnRowInit fn db cl td cn cd)) = keysFull := by
  cases items with
  | nil => exact absurd rfl h
  | cons it items =>
      rw [List.foldl_cons]
      exact keys_foldl_applyItem_of_full _ _ _ _
        (keys_applyItem_of_init _ _ _ _ (keys_columnRowInit fn db cl td cn cd))

theorem mem_columnRows {fn db cl sdb scl : Value} {td : TableDetails}
    {cn : String} {cd : ColumnDetails} {r : Row}
    (h : r ∈ columnRows fn db cl sdb scl td cn cd) :
    ∃ items, cd.lineage = some items ∧ items ≠ [] ∧
      r = items.foldl (applyItem sdb scl) (columnRowInit fn db cl td cn cd) := by
  unfold columnRows at h
  cases hl : cd.lineage with
  | none => rw [hl] at h; simp at h
  | some items =>
      rw [hl] at h
      have hr := List.eq_of_mem_replicate h
      refine ⟨items, rfl, ?_, hr⟩
      intro he
      subst he
      simp at h

theorem mem_tableRows {fn db cl sdb scl : Value} {td : TableDetails} {r : Row}
    (h : r ∈ tableRows fn db cl sdb scl td) :
    (td.columns.isEmpty ∧ r = noColumnsRow fn db cl td) ∨
    ∃ c, c ∈ td.columns ∧ r ∈ columnRows fn db cl sdb scl td c.1 c.2 := by
  unfold tableRows at h
  by_cases hc : td.columns.isEmpty
  · rw [if_pos hc] at h
    simp at h
    exact .inl ⟨hc, h⟩
  · rw [if_neg hc] at h
    simp only [List.mem_flatten, List.mem_map] at h
    obtain ⟨l, ⟨c, hcmem, hceq⟩, hrl⟩ := h
    exact .inr ⟨c, hcmem, hceq ▸ hrl⟩

theorem mem_lineageRows {fn db cl sdb scl : Value} {lr : LineageResult}
    {r : Row} (h : r ∈ lineageRows fn db cl sdb scl lr) :
    ∃ t, t ∈ lr ∧ r ∈ tableRows fn db cl sdb scl t.2 := by
  unfold lineageRows at h
  simp only [List.mem_flatten, List.mem_map] at h
  obtain ⟨l, ⟨t, htmem, hteq⟩, hrl⟩ := h
  exact ⟨t, htmem, hteq ▸ hrl⟩

theorem keys_mem_lineageRows {fn db cl sdb scl : Value} {lr : LineageResult}
    {r : Row} (h : r ∈ lineageRows fn db cl sdb scl lr) :
    keys r = keysBare ∨ keys r = keysFull := by
  obtain ⟨t, -, ht⟩ := mem_lineageRows h
  rcases mem_tableRows ht with ⟨-, hr⟩ | ⟨c, -, hc⟩
  · exact .inl (hr ▸ rfl)
  · obtain ⟨items, -, hne, hr⟩ := mem_columnRows hc
    exact .inr (hr ▸ keys_final_row fn db cl sdb scl t.2 c.1 c.2 hne)

/-! ### Inversion of `convert_sql_to_metadata` -/

theorem convert_ok_inv {ε : Type}
    {extract : String → Value → Except ε LineageResult}
    {fn s db cl sch tb sdb scl dia} {df : Df}
    (h : convert_sql_to_metadata extract fn s db cl sch tb sdb scl dia = .ok df) :
    ∃ lr, extract s dia = .ok lr ∧ lr ≠ [] ∧
      df = pdConcat emptyMetadata (dfOfRows (lineageRows fn db cl sdb scl lr)) := by
  unfold convert_sql_to_metadata at h
  cases he : extract s dia with
  | error e => rw [he] at h; simp at h
  | ok lr =>
      rw [he] at h
      dsimp only at h
      by_cases hl : lr.isEmpty
      · rw [if_pos hl] at h; simp at h
      · rw [if_neg hl] at h
        simp only [Except.ok.injEq] at h
        refine ⟨lr, rfl, ?_, h.symm⟩
        simpa [List.isEmpty_iff] using hl

theorem rows_convert_ok {ε : Type}
    {extract : String → Value → Except ε LineageResult}
    {fn s db cl sch tb sdb scl dia} {df : Df} {lr : LineageResult}
    (h : convert_sql_to_metadata extract fn s db cl sch tb sdb scl dia = .ok df)
    (he : extract s dia = .ok lr) :
    df.rows = lineageRows fn db cl sdb scl lr := by
  obtain ⟨lr2, he2, -, hdf⟩ := convert_ok_inv h
  rw [he] at he2
  cases he2
  rw [hdf]
  rfl

/-! ### Row counting -/

theorem length_columnRows (fn db cl sdb scl : Value) (td : TableDetails)
    (cn : String) (cd : ColumnDetails) :
    (columnRows fn db cl sdb scl td cn cd).length =
      (cd.lineage.getD []).length := by
  unfold columnRows
  cases cd.lineage <;> simp

theorem length_tableRows (fn db cl sdb scl : Value) (td : TableDetails) :
    (tableRows fn db cl sdb scl td).length =
      (td.columns.map fun c => (c.2.lineage.getD []).length).sum +
        (if td.columns.isEmpty then 1 else 0) := by
  unfold tableRows
  by_cases hc : td.columns.isEmpty
  · rw [if_pos hc, if_pos hc]
    have he : td.columns = [] := List.isEmpty_iff.mp hc
    simp [he]
  · rw [if_neg hc, if_neg hc]
    simp [List.length_flatten, List.map_map, Function.comp_def, length_columnRows]

theorem length_lineageRows (fn db cl sdb scl : Value) (lr : LineageResult) :
    (lineageRows fn db cl sdb scl lr).length =
      (lr.map fun t =>
        (t.2.columns.map fun c => (c.2.lineage.getD []).length).sum).sum +
        lr.countP (fun t => t.2.columns.isEmpty) := by
  unfold lineageRows
  induction lr with
  | nil => simp
  | cons t lr ih =>
      simp only [List.map_cons, List.flatten_cons, List.length_append,
        List.sum_cons, List.countP_cons, ih, length_tableRows]
      by_cases hc : t.2.columns.isEmpty <;> simp [hc] <;> omega

/-! ### Constancy of the identifying fields -/

theorem rowFind_const_mem_lineageRows {fn db cl sdb scl : Value}
    {lr : LineageResult} {r : Row} (h : r ∈ lineageRows fn db cl sdb scl lr) :
    rowFind r .filename = some fn ∧ rowFind r .database_name = some db ∧
      rowFind r .cluster_name = some cl := by
  obtain ⟨t, -, ht⟩ := mem_lineageRows h
  rcases mem_tableRows ht with ⟨-, hr⟩ | ⟨c, -, hc⟩
  · subst hr
    exact ⟨rfl, rfl, rfl⟩
  · obtain ⟨items, -, -, hr⟩ := mem_columnRows hc
    subst hr
    refine ⟨?_, ?_, ?_⟩
    · rw [rowFind_foldl_applyItem_of_notMem sdb scl items _ (by decide)]
      rfl
    · rw [rowFind_foldl_applyItem_of_notMem sdb scl items _ (by decide)]
      rfl
    · rw [rowFind_foldl_applyItem_of_notMem sdb scl items _ (by decide)]
      rfl

/-! ### Column structure of the produced DataFrames -/

/-- Does a row carry the `filter_type` key — i.e. did it come from a lineage
item rather than from a table without columns? -/
def rowHasFilterType (r : Row) : Bool := (rowFind r .filter_type).isSome

theorem rowFind_isSome_iff (r : Row) (f : Field) :
    (rowFind r f).isSome ↔ f ∈ keys r := by
  induction r with
  | nil => simp [rowFind, keys]
  | cons p r ih =>
      obtain ⟨g, w⟩ := p
      by_cases h : g = f
      · subst h
        simp [rowFind, keys]
      · simp [rowFind, h, keys, ih, Ne.symm h]

/-- The column union when a no-columns row precedes a lineage row. -/
def keysBareFull : List Field := insertKeys keysBare keysFull

/-- A per-statement DataFrame either carries all 16 columns and some row
with lineage fields, or only the initial 14 columns and no such row. -/
def dfShapeProp (df : Df) : Prop :=
  (df.cols = fields16 ∧ df.rows.any rowHasFilterType = true) ∨
    (df.cols = fields14 ∧ df.rows.any rowHasFilterType = false)

theorem foldQ (rows : List Row) (acc : List Field)
    (hshape : ∀ r ∈ rows, keys r = keysBare ∨ keys r = keysFull)
    (hacc : acc = keysFull ∨ acc = keysBareFull) :
    rows.foldl (fun a r => insertKeys a (keys r)) acc = keysFull ∨
      rows.foldl (fun a r => insertKeys a (keys r)) acc = keysBareFull := by
  induction rows generalizing acc with
  | nil => exact hacc
  | cons r rows ih =>
      rw [List.foldl_cons]
      refine ih _ (fun x hx => hshape x (List.mem_cons_of_mem r hx)) ?_
      rcases hshape r (List.mem_cons_self r rows) with hr | hr <;>
        rw [hr] <;> rcases hacc with ha | ha <;> rw [ha]
      · exact .inl (by decide)
      · exact .inr (by decide)
      · exact .inl (by decide)
      · exact .inr (by decide)

theorem foldP (rows : List Row) (acc : List Field)
    (hshape : ∀ r ∈ rows, keys r = keysBare ∨ keys r = keysFull)
    (hacc : acc = [] ∨ acc = keysBare) :
    (rows.any rowHasFilterType = true →
      (rows.foldl (fun a r => insertKeys a (keys r)) acc = keysFull ∨
        rows.foldl (fun a r => insertKeys a (keys r)) acc = keysBareFull)) ∧
    (rows.any rowHasFilterType = false →
      (rows.foldl (fun a r => insertKeys a (keys r)) acc = [] ∨
        rows.foldl (fun a r => insertKeys a (keys r)) acc = keysBare)) := by
  induction rows generalizing acc with
  | nil =>
      constructor
      · intro h
        simp at h
      · intro _
        exact hacc
  | cons r rows ih =>
      have hft : rowHasFilterType r = decide (Field.filter_type ∈ keys r) := by
        unfold rowHasFilterType
        by_cases hm : Field.filter_type ∈ keys r
        · simp [hm, (rowFind_isSome_iff r .filter_type).mpr hm]
        · have hns : ¬ (rowFind r Field.filter_type).isSome = true :=
            fun hs => hm ((rowFind_isSome_iff r _).mp hs)
          simp [hm, hns]
      rcases hshape r (List.mem_cons_self r rows) with hr | hr
      · have hfalse : rowHasFilterType r = false := by
          rw [hft, hr]; decide
        have hstep : insertKeys acc (keys r) = keysBare := by
          rw [hr]; rcases hacc with ha | ha <;> rw [ha] <;> decide
        have :=
          ih (insertKeys acc (keys r))
            (fun x hx => hshape x (List.mem_cons_of_mem r hx))
            (by rw [hstep]; exact .inr rfl)
        constructor
        · intro h
          rw [List.any_cons, hfalse, Bool.false_or] at h
          rw [List.foldl_cons]
          exact this.1 h
        · intro h
          rw [List.any_cons, hfalse, Bool.false_or] at h
          rw [List.foldl_cons]
          exact this.2 h
      · have htrue : rowHasFilterType r = true := by
          rw [hft, hr]; decide
        have hstep : insertKeys acc (keys r) = keysFull ∨
            insertKeys acc (keys r) = keysBareFull := by
          rw [hr]; rcases hacc with ha | ha <;> rw [ha]
          · exact .inl (by decide)
          · exact .inr (by decide)
        have hq := foldQ rows (insertKeys acc (keys r))
          (fun x hx => hshape x (List.mem_cons_of_mem r hx)) hstep
        constructor
        · intro _
          rw [List.foldl_cons]
          exact hq
        · intro h
          rw [List.any_cons, htrue, Bool.true_or] at h
          exact absurd h (by simp)

theorem convert_shape {ε : Type}
    {extract : String → Value → Except ε LineageResult}
    {fn s db cl sch tb sdb scl dia} {df : Df}
    (h : convert_sql_to_metadata extract fn s db cl sch tb sdb scl dia = .ok df) :
    dfShapeProp df := by
  obtain ⟨lr, -, -, hdf⟩ := convert_ok_inv h
  subst hdf
  have hshape : ∀ r ∈ lineageRows fn db cl sdb scl lr,
      keys r = keysBare ∨ keys r = keysFull :=
    fun r hr => keys_mem_lineageRows hr
  have hfold := foldP (lineageRows fn db cl sdb scl lr) [] hshape (.inl rfl)
  have hrows : (pdConcat emptyMetadata
      (dfOfRows (lineageRows fn db cl sdb scl lr))).rows =
      lineageRows fn db cl sdb scl lr := rfl
  have hcols : (pdConcat emptyMetadata
      (dfOfRows (lineageRows fn db cl sdb scl lr))).cols =
      fields14 ++ ((lineageRows fn db cl sdb scl lr).foldl
        (fun a r => insertKeys a (keys r)) []).filter
        (fun c => decide (c ∉ fields14)) := rfl
  unfold dfShapeProp
  rw [hrows, hcols]
  cases hany : (lineageRows fn db cl sdb scl lr).any rowHasFilterType with
  | true =>
      refine .inl ⟨?_, rfl⟩
      rcases hfold.1 hany with hc | hc <;> rw [hc] <;> decide
  | false =>
      refine .inr ⟨?_, rfl⟩
      rcases hfold.2 hany with hc | hc <;> rw [hc] <;> decide

theorem pdConcat_shape {a b : Df} (ha : dfShapeProp a) (hb : dfShapeProp b) :
    dfShapeProp (pdConcat a b) := by
  have hrows : (pdConcat a b).rows.any rowHasFilterType =
      (a.rows.any rowHasFilterType || b.rows.any rowHasFilterType) :=
    List.any_append
  have hcols : (pdConcat a b).cols =
      a.cols ++ b.cols.filter (fun c => decide (c ∉ a.cols)) := rfl
  unfold dfShapeProp at ha hb ⊢
  rcases ha with ⟨hc1, hr1⟩ | ⟨hc1, hr1⟩ <;> rcases hb with ⟨hc2, hr2⟩ | ⟨hc2, hr2⟩ <;>
    rw [hcols, hc1, hc2, hrows, hr1, hr2]
  · exact .inl ⟨by decide, rfl⟩
  · exact .inl ⟨by decide, rfl⟩
  · exact .inl ⟨by decide, rfl⟩
  · exact .inr ⟨by decide, rfl⟩

theorem foldl_pdConcat_shape {ds : List Df} {d : Df} (hd : dfShapeProp d)
    (hds : ∀ x ∈ ds, dfShapeProp x) : dfShapeProp (ds.foldl pdConcat d) := by
  induction ds generalizing d with
  | nil => exact hd
  | cons x ds ih =>
      rw [List.foldl_cons]
      exact ih (pdConcat_shape hd (hds x (List.mem_cons_self x ds)))
        (fun y hy => hds y (List.mem_cons_of_mem x hy))

theorem rows_foldl_pdConcat (ds : List Df) (d : Df) :
    (ds.foldl pdConcat d).rows = d.rows ++ (ds.map Df.rows).flatten := by
  induction ds generalizing d with
  | nil => simp
  | cons x ds ih =>
      rw [List.foldl_cons, ih]
      show (d.rows ++ x.rows) ++ _ = _
      simp

theorem mapExcept_ok_mem {α β ε : Type} {f : α → Except ε β} :
    ∀ {l : List α} {bs : List β}, mapExcept f l = .ok bs →
      ∀ b ∈ bs, ∃ a ∈ l, f a = .ok b := by
  intro l
  induction l with
  | nil =>
      intro bs h b hb
      unfold mapExcept at h
      simp only [Except.ok.injEq] at h
      subst h
      simp at hb
  | cons a as ih =>
      intro bs h b hb
      unfold mapExcept at h
      cases hfa : f a with
      | error e => rw [hfa] at h; simp at h
      | ok v =>
          rw [hfa] at h
          dsimp only at h
          cases hm : mapExcept f as with
          | error e => rw [hm] at h; simp at h
          | ok vs =>
              rw [hm] at h
              simp only [Except.ok.injEq] at h
              subst h
              rcases List.mem_cons.mp hb with rfl | hb2
              · exact ⟨a, List.mem_cons_self a as, hfa⟩
              · obtain ⟨a2, ha2, hfa2⟩ := ih hm b hb2
                exact ⟨a2, List.mem_cons_of_mem a ha2, hfa2⟩

theorem process_ok_inv {ε : Type}
    {extract : String → Value → Except ε LineageResult}
    {content : String → String} {input : Input}
    {db cl sch tb sdb scl dia : Value} {df : Df}
    (h : process extract content input db cl sch tb sdb scl dia = .ok df) :
    ∃ dfs : List Df,
      (∀ d ∈ dfs, ∃ fn s sch2 tb2,
        convert_sql_to_metadata extract fn s db cl sch2 tb2 sdb scl dia = .ok d) ∧
      pdConcatList dfs = some df := by
  unfold process at h
  cases input with
  | file p =>
      dsimp only at h
      cases hc : process_sql_file extract content p db cl sch sdb scl dia with
      | error e => rw [hc] at h; simp [Except.map] at h
      | ok d =>
          rw [hc] at h
          dsimp only [Except.map, pdConcatList, List.foldl] at h
          simp only [Except.ok.injEq] at h
          subst h
          refine ⟨[d], ?_, rfl⟩
          intro x hx
          simp only [List.mem_singleton] at hx
          subst hx
          exact ⟨some p, content p, sch, some (stem p), hc⟩
  | dir entries =>
      dsimp only at h
      cases hm : mapExcept
          (fun p => process_sql_file extract content p db cl sch sdb scl dia)
          (sqlFilesOf entries) with
      | error e => rw [hm] at h; simp at h
      | ok dfs =>
          rw [hm] at h
          dsimp only at h
          cases hcl : pdConcatList dfs with
          | none => rw [hcl] at h; simp at h
          | some d =>
              rw [hcl] at h
              simp only [Except.ok.injEq] at h
              subst h
              refine ⟨dfs, ?_, hcl⟩
              intro x hx
              obtain ⟨p, hp, hfp⟩ := mapExcept_ok_mem hm x hx
              exact ⟨some p, content p, sch, some (stem p), hfp⟩
  | stmt s =>
      dsimp only at h
      cases hc : convert_sql_to_metadata extract none s db cl sch tb sdb scl dia with
      | error e => rw [hc] at h; simp [Except.map] at h
      | ok d =>
          rw [hc] at h
          dsimp only [Except.map, pdConcatList, List.foldl] at h
          simp only [Except.ok.injEq] at h
          subst h
          refine ⟨[d], ?_, rfl⟩
          intro x hx
          simp only [List.mem_singleton] at hx
          subst hx
          exact ⟨none, s, sch, tb, hc⟩

theorem process_shape {ε : Type}
    {extract : String → Value → Except ε LineageResult}
    {content : String → String} {input : Input}
    {db cl sch tb sdb scl dia : Value} {df : Df}
    (h : process extract content input db cl sch tb sdb scl dia = .ok df) :
    dfShapeProp df := by
  obtain ⟨dfs, hmem, hcl⟩ := process_ok_inv h
  cases dfs with
  | nil => simp [pdConcatList] at hcl
  | cons d ds =>
      simp only [pdConcatList, Option.some.injEq] at hcl
      subst hcl
      refine foldl_pdConcat_shape ?_ ?_
      · obtain ⟨fn, s, sch2, tb2, hc⟩ := hmem d (List.mem_cons_self d ds)
        exact convert_shape hc
      · intro x hx
        obtain ⟨fn, s, sch2, tb2, hc⟩ := hmem x (List.mem_cons_of_mem d hx)
        exact convert_shape hc

/-! ### Claim theorems -/

/-- Input exhibiting the shared-dict aliasing: one table, one column `"c"`,
two lineage items with source columns `"a"` then `"b"`. -/
def c1Item0 : LineageItem :=
  ⟨some "sa", some "ta", some "a", some "ea", some "fta", some "fla", some "ma"⟩

def c1Item1 : LineageItem :=
  ⟨some "sb", some "tb", some "b", some "eb", some "ftb", some "flb", some "mb"⟩

def c1Extract : String → Value → Except String LineageResult :=
  fun _ _ =>
    .ok [("s.t", ⟨some "s", some "t", [("c", ⟨none, some [c1Item0, c1Item1]⟩)]⟩)]

/-- **C1**: the claim says the i-th emitted row for a column carries the i-th
lineage item's source fields.  The code appends the same mutable dict once
per item and keeps overwriting it, so on a column with two lineage items
(source columns `"a"` then `"b"`) *both* emitted rows carry the second
item's fields: the first row's `source_column_name` is `"b"`, not the first
item's `"a"`.  This theorem evaluates the code at that failing input. -/
theorem C1_shared_row_eval :
    (convert_sql_to_metadata c1Extract (some "f") "sql" (some "db") (some "cl")
      none none (some "sdb") (some "scl") none).map
      (fun df => df.rows.map (fun r => rowFind r .source_column_name)) =
    .ok [some (some "b"), some (some "b")] ∧
    c1Item0.column = some "a" ∧ c1Item1.column = some "b" :=
  ⟨rfl, rfl, rfl⟩

/-- **C2**: for every lineage result, `convert_sql_to_metadata` produces one
row per (table, column, lineage item) triple — the sum over all columns of
their lineage-item counts — plus one row for each table with no columns. -/
theorem C2_row_count {ε : Type}
    {extract : String → Value → Except ε LineageResult}
    (fn : Value) (s : String) (db cl sch tb sdb scl dia : Value)
    {lr : LineageResult}
    (hok : extract s dia = .ok lr) (hne : lr ≠ []) :
    ∃ df, convert_sql_to_metadata extract fn s db cl sch tb sdb scl dia = .ok df ∧
      df.rows.length =
        (lr.map fun t =>
          (t.2.columns.map fun c => (c.2.lineage.getD []).length).sum).sum +
          lr.countP (fun t => t.2.columns.isEmpty) := by
  have hie : lr.isEmpty = false := by
    cases lr with
    | nil => exact absurd rfl hne
    | cons a l => rfl
  refine ⟨pdConcat emptyMetadata
    (dfOfRows (lineageRows fn db cl sdb scl lr)), ?_, ?_⟩
  · unfold convert_sql_to_metadata
    rw [hok]
    dsimp only
    rw [hie]
    rfl
  · exact length_lineageRows fn db cl sdb scl lr

def c2Lineage : LineageResult :=
  [("s.t", ⟨some "s", some "t",
     [("c1", ⟨some "int", some [⟨none, none, none, none, none, none, none⟩,
        ⟨none, none, none, none, none, none, none⟩]⟩),
      ("c2", ⟨none, some [⟨none, none, none, none, none, none, none⟩]⟩)]⟩),
   ("s.u", ⟨some "s", some "u", []⟩)]

def c2Extract : String → Value → Except String LineageResult :=
  fun _ _ => .ok c2Lineage

/-- Witness for C2 at a concrete lineage result: 2+1 lineage items plus one
table without columns give 4 rows. -/
theorem C2_row_count_witness :
    c2Extract "q" none = .ok c2Lineage ∧ c2Lineage ≠ [] ∧
    ∃ df, convert_sql_to_metadata c2Extract (some "f") "q" (some "db")
        (some "cl") none none none none none = .ok df ∧
      df.rows.length =
        (c2Lineage.map fun t =>
          (t.2.columns.map fun c => (c.2.lineage.getD []).length).sum).sum +
          c2Lineage.countP (fun t => t.2.columns.isEmpty) :=
  ⟨rfl, by decide,
    C2_row_count (some "f") "q" (some "db") (some "cl") none none none none
      none rfl (by decide)⟩

/-- **C3**: an empty (falsy) extractor result makes
`convert_sql_to_metadata` fail with the lineage-not-found error, and the
whole run fails without writing any output file. -/
theorem C3_empty_lineage {ε : Type}
    {extract : String → Value → Except ε LineageResult}
    (content : String → String)
    (fn : Value) (s : String) (db cl sch tb sdb scl dia : Value)
    (output : String) (fs : String → Option Csv)
    (hok : extract s dia = .ok []) :
    convert_sql_to_metadata extract fn s db cl sch tb sdb scl dia =
      .error .lineageNotFound ∧
    runToFs extract content (.stmt s) db cl sch tb sdb scl dia output fs =
      .error .lineageNotFound := by
  have hc : ∀ fn2 : Value,
      convert_sql_to_metadata extract fn2 s db cl sch tb sdb scl dia =
        .error .lineageNotFound := by
    intro fn2
    unfold convert_sql_to_metadata
    rw [hok]
    rfl
  refine ⟨hc fn, ?_⟩
  unfold runToFs process
  dsimp only
  rw [hc none]
  rfl

def c3Extract : String → Value → Except String LineageResult :=
  fun _ _ => .ok []

/-- Witness for C3 with an extractor that returns an empty mapping. -/
theorem C3_empty_lineage_witness :
    c3Extract "q" none = .ok [] ∧
    (convert_sql_to_metadata c3Extract (some "f") "q" (some "db") (some "cl")
        none (some "tb") none none none = .error .lineageNotFound ∧
      runToFs c3Extract (fun _ => "") (.stmt "q") (some "db") (some "cl") none
        (some "tb") none none none "out.csv" (fun _ => none) =
        .error .lineageNotFound) :=
  ⟨rfl, C3_empty_lineage (fun _ => "") (some "f") "q" (some "db") (some "cl")
    none (some "tb") none none none "out.csv" (fun _ => none) rfl⟩

/-- **C4**: an exception raised by the extractor call propagates unchanged
(the very same error value `e`) out of `convert_sql_to_metadata`, with no
local recovery, and the whole run aborts with no output written. -/
theorem C4_extractor_error_propagates {ε : Type}
    {extract : String → Value → Except ε LineageResult}
    (content : String → String)
    (fn : Value) (s : String) (db cl sch tb sdb scl dia : Value)
    (output : String) (fs : String → Option Csv) {e : ε}
    (herr : extract s dia = .error e) :
    convert_sql_to_metadata extract fn s db cl sch tb sdb scl dia =
      .error (.extractorFailure e) ∧
    runToFs extract content (.stmt s) db cl sch tb sdb scl dia output fs =
      .error (.extractorFailure e) := by
  have hc : ∀ fn2 : Value,
      convert_sql_to_metadata extract fn2 s db cl sch tb sdb scl dia =
        .error (.extractorFailure e) := by
    intro fn2
    unfold convert_sql_to_metadata
    rw [herr]
  refine ⟨hc fn, ?_⟩
  unfold runToFs process
  dsimp only
  rw [hc none]
  rfl

def c4Extract : String → Value → Except String LineageResult :=
  fun _ _ => .error "parse failure"

/-- Witness for C4 with an extractor that raises. -/
theorem C4_extractor_error_propagates_witness :
    c4Extract "q" none = .error "parse failure" ∧
    (convert_sql_to_metadata c4Extract (some "f") "q" (some "db") (some "cl")
        none (some "tb") none none none =
        .error (.extractorFailure "parse failure") ∧
      runToFs c4Extract (fun _ => "") (.stmt "q") (some "db") (some "cl") none
        (some "tb") none none none "out.csv" (fun _ => none) =
        .error (.extractorFailure "parse failure")) :=
  ⟨rfl, C4_extractor_error_propagates (fun _ => "") (some "f") "q" (some "db")
    (some "cl") none (some "tb") none none none "out.csv" (fun _ => none) rfl⟩

/-- **C5**: every row produced by `convert_sql_to_metadata` carries the
caller-supplied `filename`, `database_name` and `cluster_name`, whatever
table, column or lineage item it came from. -/
theorem C5_constant_identifiers {ε : Type}
    (extract : String → Value → Except ε LineageResult)
    (fn : Value) (s : String) (db cl sch tb sdb scl dia : Value) (df : Df)
    (h : convert_sql_to_metadata extract fn s db cl sch tb sdb scl dia = .ok df) :
    ∀ r ∈ df.rows, rowFind r .filename = some fn ∧
      rowFind r .database_name = some db ∧ rowFind r .cluster_name = some cl := by
  intro r hr
  obtain ⟨lr, hok, hne, hdf⟩ := convert_ok_inv h
  subst hdf
  exact rowFind_const_mem_lineageRows hr

def c5Lineage : LineageResult :=
  [("s.t", ⟨some "s", some "t",
    [("c", ⟨some "int", some [⟨some "ss", some "st", some "sc", some "ex",
      some "ft", some "fl", some "ms"⟩]⟩)]⟩)]

def c5Extract : String → Value → Except String LineageResult :=
  fun _ _ => .ok c5Lineage

def c5Df : Df :=
  pdConcat emptyMetadata (dfOfRows (lineageRows (some "f") (some "db")
    (some "cl") (some "sdb") (some "scl") c5Lineage))

def c5Row : Row :=
  [(.filename, some "f"), (.database_name, some "db"),
   (.cluster_name, some "cl"), (.schema_name, some "s"),
   (.table_name, some "t"), (.column_name, some "c"),
   (.column_data_type, some "int"), (.source_database_name, some "sdb"),
   (.source_cluster_name, some "scl"), (.source_schema_name, some "ss"),
   (.source_table_name, some "st"), (.source_column_name, some "sc"),
   (.expression, some "ex"), (.filter_type, some "ft"), (.filter, some "fl"),
   (.message, some "ms")]

/-- Witness for C5 at a concrete run and a concrete produced row. -/
theorem C5_constant_identifiers_witness :
    (convert_sql_to_metadata c5Extract (some "f") "q" (some "db") (some "cl")
      none (some "tb") (some "sdb") (some "scl") none = .ok c5Df) ∧
    c5Row ∈ c5Df.rows ∧
    (rowFind c5Row .filename = some (some "f") ∧
     rowFind c5Row .database_name = some (some "db") ∧
     rowFind c5Row .cluster_name = some (some "cl")) :=
  ⟨rfl, by decide,
    C5_constant_identifiers c5Extract (some "f") "q" (some "db") (some "cl")
      none (some "tb") (some "sdb") (some "scl") none c5Df rfl c5Row (by decide)⟩

/-- **C6**: a table whose `columns` mapping is empty yields exactly one row
holding only `filename`, `database_name`, `cluster_name`, the table's
`schema` and the table's `table`; every other field of that row is unset. -/
theorem C6_no_columns_single_row (fn db cl sdb scl : Value) (td : TableDetails)
    (h : td.columns = []) :
    tableRows fn db cl sdb scl td =
      [[(.filename, fn), (.database_name, db), (.cluster_name, cl),
        (.schema_name, td.schema), (.table_name, td.table)]] ∧
    (rowFind (noColumnsRow fn db cl td) .column_name = none ∧
     rowFind (noColumnsRow fn db cl td) .column_data_type = none ∧
     rowFind (noColumnsRow fn db cl td) .expression = none ∧
     rowFind (noColumnsRow fn db cl td) .message = none ∧
     rowFind (noColumnsRow fn db cl td) .source_database_name = none ∧
     rowFind (noColumnsRow fn db cl td) .source_cluster_name = none ∧
     rowFind (noColumnsRow fn db cl td) .source_schema_name = none ∧
     rowFind (noColumnsRow fn db cl td) .source_table_name = none ∧
     rowFind (noColumnsRow fn db cl td) .source_column_name = none ∧
     rowFind (noColumnsRow fn db cl td) .filter_type = none ∧
     rowFind (noColumnsRow fn db cl td) .filter = none) := by
  refine ⟨?_, rfl, rfl, rfl, rfl, rfl, rfl, rfl, rfl, rfl, rfl, rfl⟩
  unfold tableRows
  rw [h]
  rfl

def c6Table : TableDetails := ⟨some "s", some "t", []⟩

/-- Witness for C6 at a concrete table without columns. -/
theorem C6_no_columns_single_row_witness :
    c6Table.columns = [] ∧
    (tableRows (some "f") (some "db") (some "cl") none none c6Table =
      [[(.filename, some "f"), (.database_name, some "db"),
        (.cluster_name, some "cl"), (.schema_name, c6Table.schema),
        (.table_name, c6Table.table)]] ∧
    (rowFind (noColumnsRow (some "f") (some "db") (some "cl") c6Table)
        .column_name = none ∧
     rowFind (noColumnsRow (some "f") (some "db") (some "cl") c6Table)
        .column_data_type = none ∧
     rowFind (noColumnsRow (some "f") (some "db") (some "cl") c6Table)
        .expression = none ∧
     rowFind (noColumnsRow (some "f") (some "db") (some "cl") c6Table)
        .message = none ∧
     rowFind (noColumnsRow (some "f") (some "db") (some "cl") c6Table)
        .source_database_name = none ∧
     rowFind (noColumnsRow (some "f") (some "db") (some "cl") c6Table)
        .source_cluster_name = none ∧
     rowFind (noColumnsRow (some "f") (some "db") (some "cl") c6Table)
        .source_schema_name = none ∧
     rowFind (noColumnsRow (some "f") (some "db") (some "cl") c6Table)
        .source_table_name = none ∧
     rowFind (noColumnsRow (some "f") (some "db") (some "cl") c6Table)
        .source_column_name = none ∧
     rowFind (noColumnsRow (some "f") (some "db") (some "cl") c6Table)
        .filter_type = none ∧
     rowFind (noColumnsRow (some "f") (some "db") (some "cl") c6Table)
        .filter = none)) :=
  ⟨rfl, C6_no_columns_single_row (some "f") (some "db") (some "cl") none none
    c6Table rfl⟩

/-- **C7**: a file input is read in full and processed as one statement
(`filename` = the path, statement = the file's text), with `table_name` the
file's base name with its extension stripped (`Path(...).stem`); `process`
on a file input returns exactly that single-file result. -/
theorem C7_file_as_single_statement {ε : Type}
    (extract : String → Value → Except ε LineageResult)
    (content : String → String) (p : String)
    (db cl sch tb sdb scl dia : Value) :
    process_sql_file extract content p db cl sch sdb scl dia =
      convert_sql_to_metadata extract (some p) (content p) db cl sch
        (some (stem p)) sdb scl dia ∧
    process extract content (.file p) db cl sch tb sdb scl dia =
      process_sql_file extract content p db cl sch sdb scl dia := by
  refine ⟨rfl, ?_⟩
  unfold process
  dsimp only
  cases hc : process_sql_file extract content p db cl sch sdb scl dia with
  | error e => rfl
  | ok d => rfl

/-- **C10**: the caller-supplied `schema_name` and `table_name` arguments
have no influence on the result of `convert_sql_to_metadata`: two calls
differing only in those arguments return identical tables (the emitted
`schema_name`/`table_name` fields come from the lineage result instead). -/
theorem C10_caller_schema_table_ignored {ε : Type}
    (extract : String → Value → Except ε LineageResult)
    (fn : Value) (s : String) (db cl sdb scl dia sch1 tb1 sch2 tb2 : Value) :
    convert_sql_to_metadata extract fn s db cl sch1 tb1 sdb scl dia =
      convert_sql_to_metadata extract fn s db cl sch2 tb2 sdb scl dia := rfl

def c8Extract : String → Value → Except String LineageResult :=
  fun _ _ => .ok [("s.t", ⟨some "s", some "t", []⟩)]

/-- Counterexample to **C8** as stated: a successful run whose only table
has no columns writes a header of just 14 field names — `filter_type` and
`filter` are absent, because the initial DataFrame lacks those two columns
and no lineage row introduces them. -/
theorem C8_header_counterexample :
    (process c8Extract (fun _ => "") (.stmt "q") (some "db") (some "cl") none
      (some "tb") none none none).map (fun df => df.toCsv.header) =
    .ok (fields14.map Field.name) ∧
    fields14.map Field.name ≠ fields16.map Field.name :=
  ⟨rfl, by decide⟩

/-- **C8** amended: on every successful run the written CSV has the 16
fields in the claimed order as header whenever at least one emitted row
carries the lineage-source fields; otherwise the header holds only the
first 14 fields (`filter_type` and `filter` absent).  There is one data row
per Output Row, no implicit index column, and the destination path is
overwritten whatever it held before. -/
theorem C8_csv_output {ε : Type}
    (extract : String → Value → Except ε LineageResult)
    (content : String → String) (input : Input)
    (db cl sch tb sdb scl dia : Value) (df : Df)
    (h : process extract content input db cl sch tb sdb scl dia = .ok df) :
    df.toCsv.header =
      (if df.rows.any rowHasFilterType then fields16 else fields14).map
        Field.name ∧
    df.toCsv.dataRows.length = df.rows.length ∧
    ∀ output fs,
      runToFs extract content input db cl sch tb sdb scl dia output fs =
        .ok (writeCsv fs output df.toCsv) ∧
      writeCsv fs output df.toCsv output = some df.toCsv := by
  refine ⟨?_, ?_, ?_⟩
  · rcases process_shape h with ⟨hc, hr⟩ | ⟨hc, hr⟩ <;>
      simp [Df.toCsv, hc, hr]
  · simp [Df.toCsv]
  · intro output fs
    constructor
    · unfold runToFs
      rw [h]
      rfl
    · simp [writeCsv]

def c8wLineage : LineageResult :=
  [("s.t", ⟨some "s", some "t",
    [("c", ⟨none, some [⟨some "ss", some "st", some "sc", some "ex",
      some "ft", some "fl", some "ms"⟩]⟩)]⟩)]

def c8wExtract : String → Value → Except String LineageResult :=
  fun _ _ => .ok c8wLineage

def c8wDf : Df :=
  pdConcat emptyMetadata (dfOfRows (lineageRows none (some "db") (some "cl")
    none none c8wLineage))

/-- Witness for the amended C8 at a concrete run with one lineage row. -/
theorem C8_csv_output_witness :
    (process c8wExtract (fun _ => "") (.stmt "q") (some "db") (some "cl") none
      (some "tb") none none none = .ok c8wDf) ∧
    c8wDf.toCsv.header =
      (if c8wDf.rows.any rowHasFilterType then fields16 else fields14).map
        Field.name ∧
    c8wDf.toCsv.dataRows.length = c8wDf.rows.length ∧
    (runToFs c8wExtract (fun _ => "") (.stmt "q") (some "db") (some "cl") none
        (some "tb") none none none "out.csv" (fun _ => none) =
      .ok (writeCsv (fun _ => none) "out.csv" c8wDf.toCsv) ∧
      writeCsv (fun _ => none) "out.csv" c8wDf.toCsv "out.csv" =
        some c8wDf.toCsv) :=
  ⟨rfl,
    (C8_csv_output c8wExtract (fun _ => "") (.stmt "q") (some "db") (some "cl")
      none (some "tb") none none none c8wDf rfl).1,
    (C8_csv_output c8wExtract (fun _ => "") (.stmt "q") (some "db") (some "cl")
      none (some "tb") none none none c8wDf rfl).2.1,
    (C8_csv_output c8wExtract (fun _ => "") (.stmt "q") (some "db") (some "cl")
      none (some "tb") none none none c8wDf rfl).2.2 "out.csv" (fun _ => none)⟩

def c9Extract : String → Value → Except String LineageResult :=
  fun _ _ => .ok [("s.t", ⟨some "s", some "t", []⟩)]

/-- Counterexample to **C9** as stated: a directory whose recursive listing
holds no `.sql` file (K = 0) does not produce the empty Output Table the
claim's concatenation would give — `pd.concat` on the empty list raises,
and the run fails with no table at all. -/
theorem C9_empty_dir_counterexample :
    sqlFilesOf ["notes.txt"] = [] ∧
    process c9Extract (fun _ => "") (.dir ["notes.txt"]) (some "db")
      (some "cl") none none none none none = .error .noObjectsToConcat :=
  ⟨rfl, rfl⟩

/-- **C9** amended: for a directory whose recursive listing holds K ≥ 1
files ending in `.sql`, the resulting Output Table's rows are the ordered
concatenation of the K single-file results' rows, in discovery order. -/
theorem C9_dir_concat {ε : Type}
    (extract : String → Value → Except ε LineageResult)
    (content : String → String) (entries : List String)
    (db cl sch tb sdb scl dia : Value) (df : Df) (dfs : List Df)
    (hmap : mapExcept
        (fun p => process_sql_file extract content p db cl sch sdb scl dia)
        (sqlFilesOf entries) = .ok dfs)
    (h : process extract content (.dir entries) db cl sch tb sdb scl dia =
      .ok df) :
    df.rows = (dfs.map Df.rows).flatten := by
  unfold process at h
  dsimp only at h
  rw [hmap] at h
  dsimp only at h
  cases dfs with
  | nil => simp [pdConcatList] at h
  | cons d ds =>
      simp only [pdConcatList, Except.ok.injEq] at h
      subst h
      rw [rows_foldl_pdConcat]
      simp

def c9wLineage : LineageResult := [("s.t", ⟨some "s", some "t", []⟩)]

def c9wExtract : String → Value → Except String LineageResult :=
  fun _ _ => .ok c9wLineage

def c9wDf1 : Df :=
  pdConcat emptyMetadata (dfOfRows (lineageRows (some "a.sql") (some "db")
    (some "cl") none none c9wLineage))

def c9wDf2 : Df :=
  pdConcat emptyMetadata (dfOfRows (lineageRows (some "sub/b.sql") (some "db")
    (some "cl") none none c9wLineage))

def c9wDf : Df := pdConcat c9wDf1 c9wDf2

/-- Witness for the amended C9 at a directory with two `.sql` files and one
non-matching file. -/
theorem C9_dir_concat_witness :
    (mapExcept
        (fun p => process_sql_file c9wExtract (fun _ => "SELECT 1") p
          (some "db") (some "cl") none none none none)
        (sqlFilesOf ["a.sql", "readme.md", "sub/b.sql"]) =
      .ok [c9wDf1, c9wDf2]) ∧
    (process c9wExtract (fun _ => "SELECT 1")
        (.dir ["a.sql", "readme.md", "sub/b.sql"]) (some "db") (some "cl")
        none none none none none = .ok c9wDf) ∧
    c9wDf.rows = ([c9wDf1, c9wDf2].map Df.rows).flatten :=
  ⟨rfl, rfl,
    C9_dir_concat c9wExtract (fun _ => "SELECT 1")
      ["a.sql", "readme.md", "sub/b.sql"] (some "db") (some "cl") none none
      none none none c9wDf [c9wDf1, c9wDf2] rfl rfl⟩

end SqlParser
